import Mathlib

/-!
Verification development for the gameplay-logic core of twodina:
the interaction-resolution engine (collider queries, behavior unions,
movement gating) and the dialogue engine with its script command bridge.

Scalar coordinates are embedded as rationals; the Rust code uses `f32`,
and all the properties verified here concern control flow and exact
arithmetic identities, not rounding.
-/

namespace Twodina

/-! ## Geometry (src/core/collider.rs, parry2d AABB) -/

/-- Two-dimensional vector, standing in for `bevy::math::Vec2`. -/
structure Vec2 where
  x : ℚ
  y : ℚ
deriving DecidableEq, Repr

def Vec2.add (a b : Vec2) : Vec2 := ⟨a.x + b.x, a.y + b.y⟩

def Vec2.zero : Vec2 := ⟨0, 0⟩

/-- Axis-aligned bounding box, standing in for `parry2d::bounding_volume::AABB`. -/
structure Aabb where
  mins : Vec2
  maxs : Vec2
deriving DecidableEq, Repr

/-- Intersection test of `parry2d`'s `BoundingVolume::intersects` for AABBs:
componentwise `self.mins <= other.maxs && other.mins <= self.maxs`. -/
def Aabb.intersects (a b : Aabb) : Bool :=
  decide (a.mins.x ≤ b.maxs.x) && decide (a.mins.y ≤ b.maxs.y) &&
  decide (b.mins.x ≤ a.maxs.x) && decide (b.mins.y ≤ a.maxs.y)

/-! ## Dialogue data model (src/core/game.rs, src/core/collider.rs) -/

/-- UI modality of a dialogue behavior (src/core/game.rs `DialogueUiType`). -/
inductive DialogueUiType where
  | MovementDisabled
  | Notice
deriving DecidableEq, Repr

/-- Specification of a dialogue trigger (src/core/game.rs `DialogueSpec`). -/
structure DialogueSpec where
  node_name : String
  ui_type : DialogueUiType
  auto_display : Bool
deriving DecidableEq, Repr

/-- Default `DialogueSpec` as derived in Rust (`#[derive(Default)]`). -/
def DialogueSpec.default : DialogueSpec :=
  ⟨"", DialogueUiType.MovementDisabled, false⟩

/-- Behavior tags of a collider (src/core/collider.rs `ColliderBehavior`). -/
inductive ColliderBehavior where
  | Obstruct
  | Collect
  | Load (path : String)
  | Dialogue (spec : DialogueSpec)
  | Ruby (code : String)
deriving DecidableEq, Repr

/-! ## Collider (src/core/collider.rs)

The Rust `Collider` stores `behaviors: HashSet<ColliderBehavior>` and
`shape: Cuboid` (half extents).  The set is embedded as a list; only
emptiness, membership and union are consumed by the systems verified here. -/

structure Collider where
  behaviors : List ColliderBehavior
  half_extents : Vec2
  offset : Vec2
deriving DecidableEq, Repr

/-- Outcome of an overlap query (src/core/collider.rs `Collision`). -/
structure Collision where
  behaviors : List ColliderBehavior
deriving DecidableEq, Repr

/-- The constructor `Collider::new` halves the width/height argument to get the
cuboid's half extents. -/
def Collider.new (behaviors : List ColliderBehavior) (width_height offset : Vec2) :
    Collider :=
  ⟨behaviors, ⟨width_height.x / 2, width_height.y / 2⟩, offset⟩

def Collider.insert_behavior (c : Collider) (b : ColliderBehavior) : Collider :=
  if b ∈ c.behaviors then c else ⟨c.behaviors ++ [b], c.half_extents, c.offset⟩

/-- The collider's AABB at the world transform displaced by `delta`:
cuboid of the stored half extents centered at `global + delta + offset`
(src/core/collider.rs `bounding_volume_with_translation`). -/
def Collider.bounding_volume_with_translation (c : Collider)
    (global : Vec2) (delta : Vec2) : Aabb :=
  let tx := global.x + delta.x + c.offset.x
  let ty := global.y + delta.y + c.offset.y
  ⟨⟨tx - c.half_extents.x, ty - c.half_extents.y⟩,
   ⟨tx + c.half_extents.x, ty + c.half_extents.y⟩⟩

def Collider.bounding_volume (c : Collider) (global : Vec2) : Aabb :=
  c.bounding_volume_with_translation global Vec2.zero

/-- Overlap query against one collider (src/core/collider.rs
`Collider::intersect`): an empty behavior set short-circuits to `none`
before any geometry is computed; otherwise the collider's AABB is tested
against `other` and a hit returns a clone of the behavior set. -/
def Collider.intersect (c : Collider) (global : Vec2) (other : Aabb) :
    Option Collision :=
  if c.behaviors.isEmpty then none
  else
    let aabb := c.bounding_volume global
    if !(aabb.intersects other) then none
    else some ⟨c.behaviors⟩

def Collision.empty : Collision := ⟨[]⟩

def Collision.insert_behavior (col : Collision) (b : ColliderBehavior) : Collision :=
  if b ∈ col.behaviors then col else ⟨col.behaviors ++ [b]⟩

/-- Obstruction test (src/core/collider.rs `Collision::is_obstruction`):
scans the behavior set, returning true on `Obstruct` and false for every
other variant. -/
def Collision.is_obstruction (col : Collision) : Bool :=
  col.behaviors.any fun b =>
    match b with
    | ColliderBehavior.Obstruct => true
    | ColliderBehavior.Collect => false
    | ColliderBehavior.Load _ => false
    | ColliderBehavior.Dialogue _ => false
    | ColliderBehavior.Ruby _ => false

/-! ## Dialogue engine (src/core/dialogue.rs)

The Rust `Dialogue` component owns a copy of its `DialogueAsset` plus the
running state (`current_index`, `next_index`, `next_node_name`, `is_end`)
and an interpreter handle.  Interpreter evaluation of `Ruby` nodes is an
external effect and is not reflected in the embedded state.  The Rust
`execute` contains an unbounded loop (it can diverge on a `GoTo` cycle),
so it is embedded with explicit fuel; `none` stands for a panic or for
fuel exhaustion, `some (d, events)` for normal return together with the
`DialogueEvent`s sent in order. -/

structure Choice where
  text : String
  next : String
deriving DecidableEq, Repr

/-- Node body variants (src/core/dialogue.rs `NodeBody`). -/
inductive NodeBody where
  | Branch (choices : List Choice)
  | End
  | GoTo (name : String)
  | Ruby (code : String)
  | Text (s : String)
deriving DecidableEq, Repr

/-- One dialogue node; `name` serde-defaults to the empty string when the
asset file omits it, and `next` is carried but never read by the engine. -/
structure DialogueNode where
  name : String
  body : NodeBody
  next : Option String
deriving DecidableEq, Repr

/-- Events sent by the dialogue engine (src/core/dialogue.rs `DialogueEvent`). -/
inductive DialogueEvent where
  | End
  | Text (s : String)
deriving DecidableEq, Repr

/-- Association-list embedding of `bevy::utils::HashMap<String, usize>` as
used for `nodes_by_name`: `insert` overwrites the value of an existing key. -/
def mapInsert : List (String × ℕ) → String → ℕ → List (String × ℕ)
  | [], k, v => [(k, v)]
  | (k', v') :: rest, k, v =>
    if k' = k then (k, v) :: rest else (k', v') :: mapInsert rest k v

def mapGet : List (String × ℕ) → String → Option ℕ
  | [], _ => none
  | (k', v') :: rest, k => if k' = k then some v' else mapGet rest k

/-- Name-to-index map built at load (src/core/dialogue.rs
`DialogueAsset::init`): iterate the nodes in order with their index,
skip nodes whose name is empty, and insert every other name. -/
def buildNodesByName (nodes : List DialogueNode) : List (String × ℕ) :=
  (nodes.enum).foldl
    (fun m iv => if iv.2.name = "" then m else mapInsert m iv.2.name iv.1) []

structure DialogueAsset where
  name : String
  nodes : List DialogueNode
  nodes_by_name : List (String × ℕ)
deriving DecidableEq, Repr

/-- An asset as produced by the loader: deserialized nodes followed by
`DialogueAsset::init`, which builds `nodes_by_name` once; nothing mutates
the map afterwards. -/
def DialogueAsset.init (name : String) (nodes : List DialogueNode) : DialogueAsset :=
  ⟨name, nodes, buildNodesByName nodes⟩

/-- Running dialogue state (src/core/dialogue.rs `Dialogue`, minus the
asset handle and interpreter handle). -/
structure Dialogue where
  asset : DialogueAsset
  current_index : ℕ
  next_index : Option ℕ
  next_node_name : Option String
  is_end : Bool
deriving DecidableEq, Repr

/-- State produced by `Dialogue::new` from the default
`DialoguePlaceholder` (current 0, no pending override, ended). -/
def Dialogue.new (asset : DialogueAsset) : Dialogue :=
  ⟨asset, 0, none, none, true⟩

/-- The `loop` inside `Dialogue::execute`.  Reading past the end of the
node list falls through silently with no event; `Branch` and a `GoTo` to
an unknown name panic (`none`); `End` sets the ended flag, clears
`next_index` and sends `DialogueEvent::End`; `GoTo` and `Ruby` continue
the loop (`Ruby`'s interpreter evaluation is external, and the index
advances by one, `saturating_add` being plain successor on ℕ);
`Text` sends its event and stops. -/
def Dialogue.execLoop : ℕ → Dialogue → Option (Dialogue × List DialogueEvent)
  | 0, _ => none
  | fuel + 1, d =>
    match d.asset.nodes.get? d.current_index with
    | none => some (d, [])
    | some node =>
      match node.body with
      | NodeBody.Branch _ => none
      | NodeBody.End =>
        some ({ d with is_end := true, next_index := none }, [DialogueEvent.End])
      | NodeBody.GoTo name =>
        match mapGet d.asset.nodes_by_name name with
        | none => none
        | some index => Dialogue.execLoop fuel { d with current_index := index }
      | NodeBody.Ruby _code =>
        Dialogue.execLoop fuel { d with current_index := d.current_index + 1 }
      | NodeBody.Text text => some (d, [DialogueEvent.Text text])

/-- Dialogue::execute: returns immediately when ended; otherwise resolves
a pending `next_node_name` override through the name map (panicking when
the name is absent), clears the override, and runs the node loop. -/
def Dialogue.execute (fuel : ℕ) (d : Dialogue) : Option (Dialogue × List DialogueEvent) :=
  if d.is_end then some (d, [])
  else
    match d.next_node_name with
    | some node_name =>
      match mapGet d.asset.nodes_by_name node_name with
      | none => none
      | some index =>
        Dialogue.execLoop fuel
          { d with current_index := index, next_index := none, next_node_name := none }
    | none => Dialogue.execLoop fuel { d with next_node_name := none }

/-- Dialogue::begin: record the name as pending override, clear the ended
flag, then execute. -/
def Dialogue.begin (fuel : ℕ) (d : Dialogue) (node_name : String) :
    Option (Dialogue × List DialogueEvent) :=
  Dialogue.execute fuel { d with next_node_name := some node_name, is_end := false }

def Dialogue.has_node (d : Dialogue) (name : String) : Bool :=
  (mapGet d.asset.nodes_by_name name).isSome

/-- Dialogue::begin_optional: when the name is absent from the map, return
false without touching the state (and without sending events); otherwise
begin and return true. -/
def Dialogue.begin_optional (fuel : ℕ) (d : Dialogue) (node_name : String) :
    Bool × Option (Dialogue × List DialogueEvent) :=
  if !(d.has_node node_name) then (false, some (d, []))
  else (true, Dialogue.begin fuel d node_name)

/-- Dialogue::advance: no-op when ended; otherwise move to `next_index`
(or current + 1), clear `next_index`, and execute. -/
def Dialogue.advance (fuel : ℕ) (d : Dialogue) : Option (Dialogue × List DialogueEvent) :=
  if d.is_end then some (d, [])
  else
    Dialogue.execute fuel
      { d with current_index := d.next_index.getD (d.current_index + 1),
               next_index := none }

/-- Iterated `advance`, collecting the events of all iterations. -/
def Dialogue.advanceN (fuel : ℕ) : ℕ → Dialogue → Option (Dialogue × List DialogueEvent)
  | 0, d => some (d, [])
  | k + 1, d =>
    match Dialogue.advance fuel d with
    | none => none
    | some (d', evs) =>
      match Dialogue.advanceN fuel k d' with
      | none => none
      | some (d'', evs') => some (d'', evs ++ evs')

/-! ## Script command bridge (src/core/script.rs, src/core/game.rs) -/

/-- Commands produced by script callbacks (src/core/script.rs
`ScriptCommand`). -/
inductive ScriptCommand where
  | SetVisible (name : String) (new_visible : Bool)
  | SetCollectable (name : String) (value : Bool)
  | StartDialogueIfExists (node_name : String)
deriving DecidableEq, Repr

/-- The process-wide `SCRIPT_COMMANDS: Mutex<Vec<ScriptCommand>>`,
embedded as the list of pending commands in push order (the mutex
serializes access; the sequential contents are what the claims concern). -/
abbrev ScriptQueue := List ScriptCommand

/-- Vec::push onto the locked queue: appends one element at the back. -/
def ScriptQueue.push (q : ScriptQueue) (c : ScriptCommand) : ScriptQueue :=
  q ++ [c]

/-- The `commands.drain(..)` performed once per frame by
`process_script_commands` (src/core/game.rs): yields every pending
command front to back and leaves the vector empty.  Returned as
(drained commands, queue afterwards). -/
def ScriptQueue.drain (q : ScriptQueue) : List ScriptCommand × ScriptQueue :=
  (q, ([] : List ScriptCommand))

/-- Method names registered on the `ScriptCore` class by `new_interpreter`
(src/core/script.rs lines 117-126): the commented-out registrations do
not count. -/
def registered_native_methods : List String :=
  ["example", "update_map_objects_by_name", "start_dialogue"]

/-- Native `start_dialogue(node_name)` (src/core/script.rs): pushes a
single `StartDialogueIfExists` command. -/
def native_start_dialogue (q : ScriptQueue) (node_name : String) : ScriptQueue :=
  ScriptQueue.push q (ScriptCommand.StartDialogueIfExists node_name)

/-- Native `update_map_objects_by_name(map_id, name, hash)`
(src/core/script.rs lines 137-170).  The hash argument is embedded as the
list of its entries in iteration order, each entry already converted the
way the source converts it: property name via `val_to_s`, value via
`to_bool`.  Per entry, a `"visible"` property pushes `SetVisible` with the
value's truthiness, and a `"collectable"` property with a true value
pushes `SetCollectable(name, true)`; the `"dialogue"` arm and every other
property push nothing.  The `map_id` argument is only range-checked. -/
def native_update_map_objects_by_name (q : ScriptQueue) (name : String)
    (hash : List (String × Bool)) : ScriptQueue :=
  hash.foldl
    (fun q pv =>
      let q := if pv.1 = "visible" then ScriptQueue.push q (ScriptCommand.SetVisible name pv.2) else q
      if pv.1 = "collectable" && pv.2 then ScriptQueue.push q (ScriptCommand.SetCollectable name true) else q)
    q

/-! ## Scene-object property parsing (src/loading.rs `setup_map_objects_system`) -/

/-- Property values from map data (bevy_tiled_prototype `PropertyValue`);
only the string and boolean variants are consumed by the system. -/
inductive PropertyValue where
  | BoolValue (b : Bool)
  | IntValue (n : ℤ)
  | FloatValue (q : ℚ)
  | StringValue (s : String)
deriving DecidableEq, Repr

/-- The dialogue-related part of `setup_map_objects_system`
(src/loading.rs lines 166-204): fold the object's properties, with a
`"dialogue"` string property setting the spec to (name, MovementDisabled,
auto_display false), a `"notice"` string property setting it to (name,
Notice, auto_display true) and a boolean `"autodisplay"` property
recording an override; afterwards, when some dialogue property was seen,
the override is applied only in the `Notice` case (the MovementDisabled
case just prints a warning), and the resulting spec becomes a
`ColliderBehavior.Dialogue` on the object's collider. -/
def setup_object_dialogue_spec (props : List (String × PropertyValue)) :
    Option DialogueSpec :=
  let st := props.foldl
    (fun (acc : Bool × Option Bool × DialogueSpec) kv =>
      if kv.1 = "dialogue" then
        match kv.2 with
        | PropertyValue.StringValue s =>
          (true, acc.2.1, ⟨s, DialogueUiType.MovementDisabled, false⟩)
        | _ => acc
      else if kv.1 = "notice" then
        match kv.2 with
        | PropertyValue.StringValue s =>
          (true, acc.2.1, ⟨s, DialogueUiType.Notice, true⟩)
        | _ => acc
      else if kv.1 = "autodisplay" then
        match kv.2 with
        | PropertyValue.BoolValue b => (acc.1, some b, acc.2.2)
        | _ => acc
      else acc)
    (false, none, DialogueSpec.default)
  if st.1 then
    match st.2.1 with
    | some b =>
      match st.2.2.ui_type with
      | DialogueUiType.MovementDisabled => some st.2.2
      | DialogueUiType.Notice => some { st.2.2 with auto_display := b }
    | none => some st.2.2
  else none

/-! ## Motion integrator -/

/-- Epsilon below which velocity components count as zero
(src/motion.rs `VELOCITY_EPSILON = 0.001`). -/
def VELOCITY_EPSILON : ℚ := 1 / 1000

/-- bevy's `Vec2::abs_diff_eq(Vec2::zero(), VELOCITY_EPSILON)`:
both components within epsilon of zero in absolute value. -/
def Vec2.abs_diff_eq_zero (v : Vec2) : Bool :=
  decide (|v.x| ≤ VELOCITY_EPSILON) && decide (|v.y| ≤ VELOCITY_EPSILON)

/-- Interaction event payload (src/items.rs `ItemInteraction`): the
actor entity, the collided object's entity and the clone of that
collider's behavior set. -/
structure ItemInteraction where
  actor : ℕ
  object : ℕ
  behaviors : List ColliderBehavior
deriving DecidableEq, Repr

/-- The per-character fields read by the motion system
(src/core/character.rs `Character`: velocity and movement_speed). -/
structure Character where
  velocity : Vec2
  movement_speed : ℚ
deriving DecidableEq, Repr

/-- One row of the collider query: entity id, collider, global translation
and the optional owning map handle (handles embedded as ℕ ids). -/
structure ColliderEntry where
  entity : ℕ
  collider : Collider
  global : Vec2
  owner_map : Option ℕ
deriving DecidableEq, Repr

/-- Scope test of the collider loop: a collider owned by a map other than
the current one is skipped; colliders with no owning map always
participate. -/
def ColliderEntry.in_scope (current_map : ℕ) (e : ColliderEntry) : Bool :=
  match e.owner_map with
  | some m => m = current_map
  | none => true

/-- Modelled from the spec: the movement delta of one frame of the
missing current motion system, `velocity * dt * movement_speed`. -/
def motionDelta (dt : ℚ) (character : Character) : Vec2 :=
  ⟨character.velocity.x * dt * character.movement_speed,
   character.velocity.y * dt * character.movement_speed⟩

/-- Modelled from the spec: the body of the collider loop of the missing
current motion system.  Accumulate (events so far, behavior union so
far); skip out-of-scope colliders and the entity of the actor itself; a
hit of `Collider.intersect` against the predictive volume sends one
`ItemInteraction` carrying the full behavior set and adds that set to the
per-frame union. -/
def motionStep (char_entity current_map : ℕ) (char_aabb : Aabb)
    (acc : List ItemInteraction × List ColliderBehavior) (e : ColliderEntry) :
    List ItemInteraction × List ColliderBehavior :=
  if !(e.in_scope current_map) then acc
  else if e.entity = char_entity then acc
  else
    match e.collider.intersect e.global char_aabb with
    | none => acc
    | some collision =>
      (acc.1 ++ [⟨char_entity, e.entity, collision.behaviors⟩],
       acc.2 ++ collision.behaviors)

/-- Modelled from the spec: the current `continous_move_character_system`
is missing from src/ — the copy in src/src/motion.rs predates the
set-valued collision API of src/src/core/collider.rs that its own callers
(src/src/items.rs `ItemInteraction`, src/src/core/collider.rs
`Collision::is_obstruction`) now expose.  Following spec section 4.2, on
top of the real `Collider.intersect` and `Collision.is_obstruction`: a
character whose velocity is within `VELOCITY_EPSILON` of zero is skipped;
otherwise `delta = velocity * dt * movement_speed` is computed, the
character's predictive volume is built at `position + delta`, every other
in-scope collider is queried, each overlap sends exactly one
`ItemInteraction` and contributes its behaviors to a per-frame union, and
the position is committed by exactly `delta` iff the union does not
obstruct.  Returns (position after the step, events sent in query order).
The derived Z depth value recomputed on commit is a pure function of the
committed Y and is left out of the model. -/
def continous_move_character_system (dt : ℚ) (current_map : ℕ)
    (char_entity : ℕ) (character : Character) (char_collider : Collider)
    (position : Vec2) (colliders : List ColliderEntry) :
    Vec2 × List ItemInteraction :=
  if (character.velocity).abs_diff_eq_zero then (position, [])
  else
    let delta := motionDelta dt character
    let char_aabb := char_collider.bounding_volume_with_translation position delta
    let res := colliders.foldl (motionStep char_entity current_map char_aabb) ([], [])
    let committed : Vec2 := ⟨position.x + delta.x, position.y + delta.y⟩
    ((if (Collision.mk res.2).is_obstruction then position else committed), res.1)

/-! ## Helper lemmas -/

theorem foldl_push_eq (q : ScriptQueue) (cs : List ScriptCommand) :
    cs.foldl ScriptQueue.push q = q ++ cs := by
  induction cs generalizing q with
  | nil => simp
  | cons c cs ih => simp [ScriptQueue.push, ih]

theorem mapGet_mapInsert (m : List (String × ℕ)) (k : String) (v : ℕ) (name : String) :
    mapGet (mapInsert m k v) name = if k = name then some v else mapGet m name := by
  induction m with
  | nil =>
    by_cases h : k = name <;> simp [mapInsert, mapGet, h]
  | cons kv rest ih =>
    by_cases hk : kv.1 = k
    · by_cases h : k = name <;>
        simp [mapInsert, mapGet, hk, h]
    · by_cases h : kv.1 = name
      · have h2 : ¬ k = name := fun hkn => hk (h.trans hkn.symm)
        have h3 : ¬ name = k := fun e => h2 e.symm
        simp [mapInsert, mapGet, hk, h, h2, h3]
      · simp [mapInsert, mapGet, hk, h, ih]

/-! ## Claim C3: command queue append/drain -/

/-- C3: draining the command queue after a sequence of N appends (starting
from the empty, previously drained queue) yields exactly those N commands
in append order and leaves the queue empty, so an immediately following
second drain yields zero commands; no entry is lost or duplicated. -/
theorem script_queue_drain_exact (cs : List ScriptCommand) :
    (ScriptQueue.drain (cs.foldl ScriptQueue.push ([] : ScriptQueue))).1 = cs ∧
    (ScriptQueue.drain (cs.foldl ScriptQueue.push ([] : ScriptQueue))).2 = [] ∧
    (ScriptQueue.drain
      (ScriptQueue.drain (cs.foldl ScriptQueue.push ([] : ScriptQueue))).2).1 = [] := by
  refine ⟨?_, rfl, rfl⟩
  simpa using foldl_push_eq [] cs

/-! ## Claim C4: GoTo chase scenario -/

/-- The three-node asset of the scenario: a named `GoTo`, a named `Text`
and an unnamed `End`. -/
def greetNodes : List DialogueNode :=
  [⟨"Start", NodeBody.GoTo "Greet", none⟩,
   ⟨"Greet", NodeBody.Text "Hello", none⟩,
   ⟨"", NodeBody.End, none⟩]

def greetAsset : DialogueAsset := DialogueAsset.init "greet" greetNodes

/-- C4: on the asset [Start: GoTo Greet, Greet: Text Hello, End],
`begin "Start"` chases the GoTo without pausing and emits exactly one
`Text "Hello"`; the next `advance` emits `End` and sets the ended state;
a further `advance` emits nothing and leaves the state ended. -/
theorem dialogue_goto_chase_scenario :
    Dialogue.begin 10 (Dialogue.new greetAsset) "Start" =
      some (⟨greetAsset, 1, none, none, false⟩, [DialogueEvent.Text "Hello"]) ∧
    Dialogue.advance 10 ⟨greetAsset, 1, none, none, false⟩ =
      some (⟨greetAsset, 2, none, none, true⟩, [DialogueEvent.End]) ∧
    Dialogue.advance 10 ⟨greetAsset, 2, none, none, true⟩ =
      some (⟨greetAsset, 2, none, none, true⟩, []) :=
  ⟨rfl, rfl, rfl⟩

/-! ## Claim C5: duplicate node names -/

/-- Reference description of the map, following the spec's phrasing of a
name-to-index map over the registered node names, parameterized by which
registration survives: this function returns the index of the LAST node
carrying the name, which is what overwriting inserts produce. -/
def lastIndexOfName (nodes : List DialogueNode) (name : String) : Option ℕ :=
  nodes.enum.foldl (fun acc iv => if iv.2.name = name then some iv.1 else acc) none

theorem buildNodesByName_aux (nodes : List DialogueNode) (n : ℕ)
    (m : List (String × ℕ)) (name : String) (h : name ≠ "") :
    mapGet ((nodes.enumFrom n).foldl
        (fun m iv => if iv.2.name = "" then m else mapInsert m iv.2.name iv.1) m) name =
      (nodes.enumFrom n).foldl
        (fun acc iv => if iv.2.name = name then some iv.1 else acc) (mapGet m name) := by
  induction nodes generalizing n m with
  | nil => simp [List.enumFrom]
  | cons node rest ih =>
    by_cases he : node.name = ""
    · have hne : ¬ node.name = name := by
        rw [he]; exact fun e => h e.symm
      have h0 : ¬ ("" : String) = name := fun e => h e.symm
      simp [List.enumFrom, he, hne, h0, ih]
    · simp [List.enumFrom, he, ih, mapGet_mapInsert]

theorem mapGet_buildNodesByName (nodes : List DialogueNode) (name : String)
    (h : name ≠ "") :
    mapGet (buildNodesByName nodes) name = lastIndexOfName nodes name := by
  have hx := buildNodesByName_aux nodes 0 [] name h
  simpa [buildNodesByName, lastIndexOfName, List.enum, mapGet] using hx

/-- Two-node asset whose nodes share the name "A". -/
def dupNodes : List DialogueNode :=
  [⟨"A", NodeBody.Text "x", none⟩, ⟨"A", NodeBody.Text "y", none⟩]

/-- C5 counterexample: on an asset with two nodes both named "A", the map
built at load resolves "A" to index 1, the last-registered node, not to
the first-registered index 0 that the claim requires. -/
theorem duplicate_name_first_wins_counterexample :
    mapGet (DialogueAsset.init "dup" dupNodes).nodes_by_name "A" = some 1 ∧
    mapGet (DialogueAsset.init "dup" dupNodes).nodes_by_name "A" ≠ some 0 := by
  decide

/-- C5 amended: when nodes share a non-empty name, the map built once at
load resolves that name to the LAST-registered node's index (overwriting
insert), and lookup of any non-empty name agrees with the last-wins
reference function. -/
theorem duplicate_name_last_wins (nodes : List DialogueNode) (aname name : String)
    (h : name ≠ "") :
    mapGet (DialogueAsset.init aname nodes).nodes_by_name name =
      lastIndexOfName nodes name := by
  simpa [DialogueAsset.init] using mapGet_buildNodesByName nodes name h

/-- Witness for the amended C5 at a concrete duplicate-name asset. -/
theorem duplicate_name_last_wins_witness :
    ("A" : String) ≠ "" ∧
    mapGet (DialogueAsset.init "dup" dupNodes).nodes_by_name "A" =
      lastIndexOfName dupNodes "A" :=
  ⟨by decide, duplicate_name_last_wins dupNodes "dup" "A" (by decide)⟩

/-! ## Claim C7: script-callable native surface -/

/-- C7 counterexample: the interpreter registers no natives named
set_visible, set_collectable or play_sound (the surface is example,
update_map_objects_by_name and start_dialogue), and a single call of
update_map_objects_by_name with a hash carrying a visible entry and a
true collectable entry appends two commands, not one. -/
theorem script_native_surface_counterexample :
    ¬ ("set_visible" ∈ registered_native_methods) ∧
    ¬ ("set_collectable" ∈ registered_native_methods) ∧
    ¬ ("play_sound" ∈ registered_native_methods) ∧
    (native_update_map_objects_by_name ([] : ScriptQueue) "gem"
        [("visible", true), ("collectable", true)]).length = 2 := by
  decide

/-- C7 amended: the script-callable natives that touch the bridge queue
are start_dialogue and update_map_objects_by_name; start_dialogue appends
exactly one StartDialogueIfExists command per call, and
update_map_objects_by_name appends one SetVisible command per "visible"
entry plus one SetCollectable command per true "collectable" entry of its
hash argument (zero or more per call); both only append to the queue and
leave the previously queued commands intact, mutating no world state
directly. -/
theorem script_natives_append_only (q : ScriptQueue) (node_name name : String)
    (hash : List (String × Bool)) :
    native_start_dialogue q node_name =
      q ++ [ScriptCommand.StartDialogueIfExists node_name] ∧
    ∃ cs, native_update_map_objects_by_name q name hash = q ++ cs ∧
      cs.length =
        (hash.filter (fun pv => pv.1 = "visible")).length +
        (hash.filter (fun pv => pv.1 = "collectable" && pv.2)).length := by
  refine ⟨rfl, ?_⟩
  induction hash generalizing q with
  | nil => exact ⟨[], by simp [native_update_map_objects_by_name]⟩
  | cons pv rest ih =>
    have step :
        native_update_map_objects_by_name q name (pv :: rest) =
          native_update_map_objects_by_name
            (let q := if pv.1 = "visible" then ScriptQueue.push q (ScriptCommand.SetVisible name pv.2) else q
             if pv.1 = "collectable" && pv.2 then ScriptQueue.push q (ScriptCommand.SetCollectable name true) else q)
            name rest := rfl
    by_cases hv : pv.1 = "visible"
    · have hc : ¬ (pv.1 = "collectable" && pv.2) = true := by
        simp [hv]
      obtain ⟨cs, hcs, hlen⟩ :=
        ih (ScriptQueue.push q (ScriptCommand.SetVisible name pv.2))
      refine ⟨ScriptCommand.SetVisible name pv.2 :: cs, ?_, ?_⟩
      · rw [step]
        simp only [hv, if_pos, hc, if_neg, Bool.not_eq_true]
        simpa [ScriptQueue.push] using hcs
      · simp [hv, hc, hlen]
        omega
    · by_cases hc : (pv.1 = "collectable" && pv.2) = true
      · obtain ⟨cs, hcs, hlen⟩ :=
          ih (ScriptQueue.push q (ScriptCommand.SetCollectable name true))
        refine ⟨ScriptCommand.SetCollectable name true :: cs, ?_, ?_⟩
        · rw [step]
          simp only [hv, if_neg, hc, if_pos, Bool.not_eq_true]
          simpa [ScriptQueue.push] using hcs
        · simp at hc
          simp [hv, hc, hlen]
          omega
      · obtain ⟨cs, hcs, hlen⟩ := ih q
        refine ⟨cs, ?_, ?_⟩
        · rw [step]
          simp only [hv, if_neg, hc, Bool.not_eq_true]
          exact hcs
        · simp at hc
          by_cases hcn : pv.1 = "collectable"
          · simp [hv, hcn, hc hcn, hlen]
          · simp [hv, hcn, hlen]

/-! ## Claim C9: autodisplay override -/

/-- C9 counterexample: an object carrying a "dialogue" property and a
boolean autodisplay=true property still gets auto_display = false — the
override is ignored (with a warning) for the MovementDisabled UI type
that "dialogue" selects. -/
theorem autodisplay_override_counterexample :
    setup_object_dialogue_spec
        [("dialogue", PropertyValue.StringValue "n"),
         ("autodisplay", PropertyValue.BoolValue true)] =
      some ⟨"n", DialogueUiType.MovementDisabled, false⟩ ∧
    setup_object_dialogue_spec
        [("dialogue", PropertyValue.StringValue "n"),
         ("autodisplay", PropertyValue.BoolValue true)] ≠
      some ⟨"n", DialogueUiType.MovementDisabled, true⟩ := by
  decide

/-- C9 amended: a boolean autodisplay property overrides the default
auto-display flag only for the Dialogue behavior produced from a "notice"
property (Notice UI type, default auto-display true); for the behavior
produced from a "dialogue" property (MovementDisabled UI type) the
override is ignored and auto-display stays false. -/
theorem autodisplay_override_notice_only (s : String) (b : Bool) :
    setup_object_dialogue_spec
        [("notice", PropertyValue.StringValue s),
         ("autodisplay", PropertyValue.BoolValue b)] =
      some ⟨s, DialogueUiType.Notice, b⟩ ∧
    setup_object_dialogue_spec [("notice", PropertyValue.StringValue s)] =
      some ⟨s, DialogueUiType.Notice, true⟩ ∧
    setup_object_dialogue_spec
        [("dialogue", PropertyValue.StringValue s),
         ("autodisplay", PropertyValue.BoolValue b)] =
      some ⟨s, DialogueUiType.MovementDisabled, false⟩ ∧
    setup_object_dialogue_spec [("dialogue", PropertyValue.StringValue s)] =
      some ⟨s, DialogueUiType.MovementDisabled, false⟩ :=
  ⟨rfl, rfl, rfl, rfl⟩

/-! ## Claim C10: empty-name nodes -/

theorem buildNodesByName_aux_empty (nodes : List DialogueNode) (n : ℕ)
    (m : List (String × ℕ)) (hm : mapGet m "" = none) :
    mapGet ((nodes.enumFrom n).foldl
        (fun m iv => if iv.2.name = "" then m else mapInsert m iv.2.name iv.1) m) "" =
      none := by
  induction nodes generalizing n m with
  | nil => simpa [List.enumFrom] using hm
  | cons node rest ih =>
    by_cases he : node.name = ""
    · simp only [List.enumFrom, List.foldl, he, if_pos]
      exact ih _ _ hm
    · simp only [List.enumFrom, List.foldl, he, if_neg, Bool.not_eq_true]
      refine ih _ _ ?_
      simp [mapGet_mapInsert, he, hm]

theorem mapGet_buildNodesByName_empty (nodes : List DialogueNode) :
    mapGet (buildNodesByName nodes) "" = none := by
  simpa [buildNodesByName, List.enum, mapGet] using
    buildNodesByName_aux_empty nodes 0 [] rfl

/-- C10: a node whose name is the empty string is never entered into the
name map, so lookup of "" fails on every loaded asset, has_node "" is
false, begin_optional "" returns false with the state untouched and no
events, begin "" panics in execute's override resolution, and a GoTo ""
node panics likewise — unnamed nodes are unreachable by name. -/
theorem empty_name_unreachable (aname : String) (nodes : List DialogueNode)
    (ci : ℕ) (ni : Option ℕ) (nnn : Option String) (ie : Bool) (fuel : ℕ)
    (pre rest : List DialogueNode) (nm : String) (nx : Option String) :
    mapGet (DialogueAsset.init aname nodes).nodes_by_name "" = none ∧
    Dialogue.has_node ⟨DialogueAsset.init aname nodes, ci, ni, nnn, ie⟩ "" = false ∧
    Dialogue.begin_optional fuel ⟨DialogueAsset.init aname nodes, ci, ni, nnn, ie⟩ "" =
      (false, some (⟨DialogueAsset.init aname nodes, ci, ni, nnn, ie⟩, [])) ∧
    Dialogue.begin fuel ⟨DialogueAsset.init aname nodes, ci, ni, nnn, ie⟩ "" = none ∧
    Dialogue.execLoop (fuel + 1)
      ⟨DialogueAsset.init aname (pre ++ ⟨nm, NodeBody.GoTo "", nx⟩ :: rest),
       pre.length, ni, nnn, ie⟩ = none := by
  have hmap : ∀ ns : List DialogueNode, mapGet (buildNodesByName ns) "" = none :=
    mapGet_buildNodesByName_empty
  refine ⟨hmap nodes, ?_, ?_, ?_, ?_⟩
  · simp [Dialogue.has_node, DialogueAsset.init, hmap nodes]
  · simp [Dialogue.begin_optional, Dialogue.has_node, DialogueAsset.init, hmap nodes]
  · simp [Dialogue.begin, Dialogue.execute, DialogueAsset.init, hmap nodes]
  · have hget : (pre ++ (⟨nm, NodeBody.GoTo "", nx⟩ : DialogueNode) :: rest).get?
        pre.length = some ⟨nm, NodeBody.GoTo "", nx⟩ := by
      rw [List.get?_eq_getElem?, List.getElem?_append_right (le_refl _)]
      simp
    simp only [Dialogue.execLoop, DialogueAsset.init, hget, hmap]

/-! ## Claim C6: past-the-end is a silent end -/

theorem execLoop_past_end (fuel : ℕ) (d : Dialogue)
    (h : d.asset.nodes.length ≤ d.current_index) :
    Dialogue.execLoop (fuel + 1) d = some (d, []) := by
  have hg : d.asset.nodes.get? d.current_index = none := by
    rw [List.get?_eq_getElem?]
    exact List.getElem?_eq_none h
  simp only [Dialogue.execLoop, hg]

theorem execute_past_end (fuel : ℕ) (d : Dialogue)
    (h : d.asset.nodes.length ≤ d.current_index)
    (hnnn : d.next_node_name = none) :
    Dialogue.execute (fuel + 1) d = some (d, []) := by
  by_cases he : d.is_end
  · simp [Dialogue.execute, he]
  · have hupd : { d with next_node_name := none } = d := by
      obtain ⟨a, ci, ni, nnn, ie⟩ := d
      simp only at hnnn
      subst hnnn
      rfl
    rw [Dialogue.execute, if_neg he, hnnn, hupd]
    exact execLoop_past_end fuel d h

theorem advance_past_end (fuel : ℕ) (d : Dialogue)
    (hpast : d.asset.nodes.length ≤ d.current_index)
    (hni : d.next_index = none) (hnnn : d.next_node_name = none) :
    ∃ d', Dialogue.advance (fuel + 1) d = some (d', []) ∧
      d'.asset.nodes.length ≤ d'.current_index ∧
      d'.next_index = none ∧ d'.next_node_name = none := by
  by_cases he : d.is_end
  · exact ⟨d, by simp [Dialogue.advance, he], hpast, hni, hnnn⟩
  · refine ⟨{ d with current_index := d.current_index + 1, next_index := none },
      ?_, by simpa using Nat.le_succ_of_le hpast, rfl, hnnn⟩
    rw [Dialogue.advance, if_neg he, hni]
    exact execute_past_end fuel _ (Nat.le_succ_of_le hpast) hnnn

theorem advanceN_past_end (fuel k : ℕ) (d : Dialogue)
    (hpast : d.asset.nodes.length ≤ d.current_index)
    (hni : d.next_index = none) (hnnn : d.next_node_name = none) :
    (Dialogue.advanceN (fuel + 1) k d).map Prod.snd = some [] := by
  induction k generalizing d with
  | zero => simp [Dialogue.advanceN]
  | succ k ih =>
    obtain ⟨d', hadv, hp, hni', hnnn'⟩ := advance_past_end fuel d hpast hni hnnn
    have htail := ih d' hp hni' hnnn'
    cases hAN : Dialogue.advanceN (fuel + 1) k d' with
    | none => rw [hAN] at htail; simp at htail
    | some p =>
      obtain ⟨d'', evs⟩ := p
      rw [hAN] at htail
      have hevs : evs = [] := by simpa using htail
      subst hevs
      simp [Dialogue.advanceN, hadv, hAN]

/-- C6: when execution reaches an index at or past the end of the node
list (with no pending override), execute falls through silently — no
event, state unchanged — and every number of subsequent advance calls
also emits no event, exactly as in the Ended state; no explicit terminator
node is required. -/
theorem past_end_silent (d : Dialogue) (fuel k : ℕ)
    (hpast : d.asset.nodes.length ≤ d.current_index)
    (hni : d.next_index = none) (hnnn : d.next_node_name = none) :
    Dialogue.execute (fuel + 1) d = some (d, []) ∧
    (Dialogue.advanceN (fuel + 1) k d).map Prod.snd = some [] :=
  ⟨execute_past_end fuel d hpast hnnn, advanceN_past_end fuel k d hpast hni hnnn⟩

/-- Witness for C6 at a concrete past-the-end state. -/
theorem past_end_silent_witness :
    Dialogue.execute 1 ⟨DialogueAsset.init "w" [], 5, none, none, false⟩ =
      some (⟨DialogueAsset.init "w" [], 5, none, none, false⟩, []) ∧
    (Dialogue.advanceN 1 3 ⟨DialogueAsset.init "w" [], 5, none, none, false⟩).map
      Prod.snd = some [] :=
  past_end_silent ⟨DialogueAsset.init "w" [], 5, none, none, false⟩ 0 3
    (by decide) rfl rfl

/-! ## Motion lemmas shared by C1, C2, C8 -/

/-- A collider entry sends an interaction this frame: in scope, not the
actor itself, non-empty behavior set and geometric overlap with the
predictive volume — exactly the conditions under which
`Collider.intersect` answers `some`. -/
def sendsInteraction (current_map char_entity : ℕ) (char_aabb : Aabb)
    (e : ColliderEntry) : Bool :=
  e.in_scope current_map && !(decide (e.entity = char_entity)) &&
  !(e.collider.behaviors.isEmpty) &&
  (e.collider.bounding_volume e.global).intersects char_aabb

theorem motionStep_eq (ce cm : ℕ) (aabb : Aabb)
    (acc : List ItemInteraction × List ColliderBehavior) (e : ColliderEntry) :
    motionStep ce cm aabb acc e =
      if sendsInteraction cm ce aabb e
      then (acc.1 ++ [⟨ce, e.entity, e.collider.behaviors⟩],
            acc.2 ++ e.collider.behaviors)
      else acc := by
  unfold motionStep sendsInteraction Collider.intersect
  by_cases hs : e.in_scope cm
  · by_cases hent : e.entity = ce
    · simp [hs, hent]
    · by_cases hemp : e.collider.behaviors.isEmpty
      · simp [hs, hent, hemp]
      · by_cases hint : (e.collider.bounding_volume e.global).intersects aabb
        · rw [Collider.bounding_volume] at hint
          simp [hs, hent, hemp, hint, Collider.bounding_volume]
        · rw [Collider.bounding_volume] at hint
          simp [hs, hent, hemp, hint, Collider.bounding_volume]
  · simp [hs]

theorem motion_foldl_events (cm ce : ℕ) (aabb : Aabb) (cols : List ColliderEntry)
    (acc : List ItemInteraction × List ColliderBehavior) :
    (cols.foldl (motionStep ce cm aabb) acc).1 =
      acc.1 ++ (cols.filter (sendsInteraction cm ce aabb)).map
        (fun e => (⟨ce, e.entity, e.collider.behaviors⟩ : ItemInteraction)) := by
  induction cols generalizing acc with
  | nil => simp
  | cons e rest ih =>
    rw [List.foldl_cons, motionStep_eq]
    by_cases h : sendsInteraction cm ce aabb e
    · rw [if_pos h, ih]
      simp [List.filter_cons, h]
    · rw [if_neg h, ih]
      simp [List.filter_cons, h]

theorem motion_foldl_obstruct (cm ce : ℕ) (aabb : Aabb) (cols : List ColliderEntry)
    (acc : List ItemInteraction × List ColliderBehavior) :
    ColliderBehavior.Obstruct ∈ (cols.foldl (motionStep ce cm aabb) acc).2 ↔
      (ColliderBehavior.Obstruct ∈ acc.2 ∨
        ∃ e ∈ cols, sendsInteraction cm ce aabb e = true ∧
          ColliderBehavior.Obstruct ∈ e.collider.behaviors) := by
  induction cols generalizing acc with
  | nil => simp
  | cons e rest ih =>
    rw [List.foldl_cons, motionStep_eq]
    by_cases h : sendsInteraction cm ce aabb e
    · rw [if_pos h, ih]
      simp only [List.mem_append, List.mem_cons]
      constructor
      · rintro (⟨ha | hb⟩ | ⟨x, hx, hsx, hox⟩)
        · exact Or.inl ha
        · exact Or.inr ⟨e, Or.inl rfl, h, hb⟩
        · exact Or.inr ⟨x, Or.inr hx, hsx, hox⟩
      · rintro (ha | ⟨x, hx | hx, hsx, hox⟩)
        · exact Or.inl (Or.inl ha)
        · exact Or.inl (Or.inr (hx ▸ hox))
        · exact Or.inr ⟨x, hx, hsx, hox⟩
    · rw [if_neg h, ih]
      simp only [List.mem_cons]
      constructor
      · rintro (ha | ⟨x, hx, hsx, hox⟩)
        · exact Or.inl ha
        · exact Or.inr ⟨x, Or.inr hx, hsx, hox⟩
      · rintro (ha | ⟨x, hx | hx, hsx, hox⟩)
        · exact Or.inl ha
        · exact absurd (hx ▸ hsx) h
        · exact Or.inr ⟨x, hx, hsx, hox⟩

theorem is_obstruction_iff (l : List ColliderBehavior) :
    (Collision.mk l).is_obstruction = true ↔ ColliderBehavior.Obstruct ∈ l := by
  simp only [Collision.is_obstruction, List.any_eq_true]
  constructor
  · rintro ⟨b, hb, hmatch⟩
    cases b <;> simp_all
  · intro h
    exact ⟨ColliderBehavior.Obstruct, h, rfl⟩

theorem sends_and_obstruct_iff (cm ce : ℕ) (aabb : Aabb) (e : ColliderEntry) :
    (sendsInteraction cm ce aabb e = true ∧
      ColliderBehavior.Obstruct ∈ e.collider.behaviors) ↔
      (e.in_scope cm = true ∧ ¬(e.entity = ce) ∧
        (e.collider.bounding_volume e.global).intersects aabb = true ∧
        ColliderBehavior.Obstruct ∈ e.collider.behaviors) := by
  constructor
  · rintro ⟨hs, hmem⟩
    simp only [sendsInteraction, Bool.and_eq_true, Bool.not_eq_true',
      decide_eq_false_iff_not] at hs
    exact ⟨hs.1.1.1, hs.1.1.2, hs.2, hmem⟩
  · rintro ⟨h1, h2, h3, h4⟩
    have hne : e.collider.behaviors.isEmpty = false := by
      cases hb : e.collider.behaviors with
      | nil => rw [hb] at h4; cases h4
      | cons a l => rfl
    refine ⟨?_, h4⟩
    simp [sendsInteraction, h1, h2, h3, hne]

/-! ## Claim C1: Obstruct gates movement -/

/-- C1: for a frame step of an actor with velocity not within epsilon of
zero, if some in-scope collider other than the actor overlaps the
predictive volume and carries Obstruct (equivalently, the per-frame
behavior union contains Obstruct) the position after the step equals the
position before — no partial movement; otherwise the position is
committed by exactly delta = velocity * dt * movement_speed. -/
theorem obstruct_gates_movement (dt : ℚ) (cm ce : ℕ) (ch : Character)
    (ccol : Collider) (pos : Vec2) (cols : List ColliderEntry)
    (hv : ch.velocity.abs_diff_eq_zero = false) :
    ((∃ e ∈ cols, e.in_scope cm = true ∧ ¬(e.entity = ce) ∧
        (e.collider.bounding_volume e.global).intersects
          (ccol.bounding_volume_with_translation pos (motionDelta dt ch)) = true ∧
        ColliderBehavior.Obstruct ∈ e.collider.behaviors) →
      (continous_move_character_system dt cm ce ch ccol pos cols).1 = pos) ∧
    ((¬ ∃ e ∈ cols, e.in_scope cm = true ∧ ¬(e.entity = ce) ∧
        (e.collider.bounding_volume e.global).intersects
          (ccol.bounding_volume_with_translation pos (motionDelta dt ch)) = true ∧
        ColliderBehavior.Obstruct ∈ e.collider.behaviors) →
      (continous_move_character_system dt cm ce ch ccol pos cols).1 =
        ⟨pos.x + (motionDelta dt ch).x, pos.y + (motionDelta dt ch).y⟩) := by
  have hkey :
      (Collision.mk ((cols.foldl
          (motionStep ce cm (ccol.bounding_volume_with_translation pos (motionDelta dt ch)))
          ([], [])).2)).is_obstruction = true ↔
        (∃ e ∈ cols, e.in_scope cm = true ∧ ¬(e.entity = ce) ∧
          (e.collider.bounding_volume e.global).intersects
            (ccol.bounding_volume_with_translation pos (motionDelta dt ch)) = true ∧
          ColliderBehavior.Obstruct ∈ e.collider.behaviors) := by
    rw [is_obstruction_iff, motion_foldl_obstruct]
    simp only [List.not_mem_nil, false_or]
    exact exists_congr fun e => and_congr_right fun _ => sends_and_obstruct_iff cm ce _ e
  constructor
  · intro hex
    have hob := hkey.mpr hex
    simp [continous_move_character_system, hv, hob]
  · intro hnex
    have hob : (Collision.mk ((cols.foldl
        (motionStep ce cm (ccol.bounding_volume_with_translation pos (motionDelta dt ch)))
        ([], [])).2)).is_obstruction = false := by
      rw [Bool.eq_false_iff]
      intro hcontra
      exact hnex (hkey.mp hcontra)
    simp [continous_move_character_system, hv, hob]

/-- Concrete actor used in motion witnesses: velocity (1,0), speed 1. -/
def demoCharacter : Character := ⟨⟨1, 0⟩, 1⟩

def demoCharCollider : Collider :=
  Collider.new [ColliderBehavior.Collect] ⟨2, 2⟩ ⟨0, 0⟩

def demoObstacle : ColliderEntry :=
  ⟨1, Collider.new [ColliderBehavior.Obstruct] ⟨2, 2⟩ ⟨0, 0⟩, ⟨1, 0⟩, none⟩

def demoCollectable : ColliderEntry :=
  ⟨2, Collider.new [ColliderBehavior.Collect] ⟨2, 2⟩ ⟨0, 0⟩, ⟨0, 1⟩, none⟩

/-- Witness for C1: moving into an obstructing collider leaves the
position unchanged. -/
theorem obstruct_gates_movement_witness :
    demoCharacter.velocity.abs_diff_eq_zero = false ∧
    (continous_move_character_system 1 0 0 demoCharacter demoCharCollider
      ⟨0, 0⟩ [demoObstacle]).1 = ⟨0, 0⟩ :=
  ⟨by norm_num [demoCharacter, Vec2.abs_diff_eq_zero, VELOCITY_EPSILON],
   (obstruct_gates_movement 1 0 0 demoCharacter demoCharCollider ⟨0, 0⟩
      [demoObstacle]
      (by norm_num [demoCharacter, Vec2.abs_diff_eq_zero, VELOCITY_EPSILON])).1
     ⟨demoObstacle, by
        norm_num [demoCharacter, demoCharCollider, demoObstacle, motionDelta,
          Collider.new, Collider.bounding_volume,
          Collider.bounding_volume_with_translation, Aabb.intersects,
          ColliderEntry.in_scope, Vec2.zero]⟩⟩

/-! ## Claim C2: one event per overlapping collider -/

/-- C2 counterexample: an in-scope collider distinct from the actor whose
volume geometrically overlaps the predictive volume but whose behavior
set is empty produces zero interaction events, where the claim demands
exactly one per overlapping collider. -/
theorem one_event_per_overlap_counterexample :
    (((⟨1, Collider.new [] ⟨2, 2⟩ ⟨0, 0⟩, ⟨0, 0⟩, none⟩ :
        ColliderEntry)).collider.bounding_volume ⟨0, 0⟩).intersects
      (demoCharCollider.bounding_volume_with_translation ⟨0, 0⟩
        (motionDelta 1 demoCharacter)) = true ∧
    (⟨1, Collider.new [] ⟨2, 2⟩ ⟨0, 0⟩, ⟨0, 0⟩, none⟩ : ColliderEntry).in_scope 0 = true ∧
    (1 : ℕ) ≠ 0 ∧
    (continous_move_character_system 1 0 0 demoCharacter demoCharCollider ⟨0, 0⟩
      [⟨1, Collider.new [] ⟨2, 2⟩ ⟨0, 0⟩, ⟨0, 0⟩, none⟩]).2 = [] := by
  norm_num [demoCharacter, demoCharCollider, continous_move_character_system,
    motionStep, motionDelta, Collider.new, Collider.intersect,
    Collider.bounding_volume, Collider.bounding_volume_with_translation,
    Aabb.intersects, Collision.is_obstruction, ColliderEntry.in_scope,
    Vec2.abs_diff_eq_zero, VELOCITY_EPSILON, Vec2.zero]

/-- C2 amended: for a frame step of an actor with velocity not within
epsilon of zero, the emitted events are exactly one Interaction
{actor, collider, behaviors} per in-scope collider (other than the actor)
whose behavior set is non-empty and whose volume overlaps the predictive
volume, in query order and independently of whether the union contains
Obstruct; empty-behavior colliders produce no event even when they
geometrically overlap. -/
theorem one_event_per_hit (dt : ℚ) (cm ce : ℕ) (ch : Character)
    (ccol : Collider) (pos : Vec2) (cols : List ColliderEntry)
    (hv : ch.velocity.abs_diff_eq_zero = false) :
    (continous_move_character_system dt cm ce ch ccol pos cols).2 =
      (cols.filter
        (sendsInteraction cm ce
          (ccol.bounding_volume_with_translation pos (motionDelta dt ch)))).map
        (fun e => (⟨ce, e.entity, e.collider.behaviors⟩ : ItemInteraction)) := by
  simp [continous_move_character_system, hv, motion_foldl_events]

/-- Witness for the amended C2 at a concrete two-collider frame. -/
theorem one_event_per_hit_witness :
    demoCharacter.velocity.abs_diff_eq_zero = false ∧
    (continous_move_character_system 1 0 0 demoCharacter demoCharCollider ⟨0, 0⟩
        [demoObstacle, demoCollectable]).2 =
      ([demoObstacle, demoCollectable].filter
        (sendsInteraction 0 0
          (demoCharCollider.bounding_volume_with_translation ⟨0, 0⟩
            (motionDelta 1 demoCharacter)))).map
        (fun e => (⟨0, e.entity, e.collider.behaviors⟩ : ItemInteraction)) :=
  ⟨by norm_num [demoCharacter, Vec2.abs_diff_eq_zero, VELOCITY_EPSILON],
   one_event_per_hit 1 0 0 demoCharacter demoCharCollider ⟨0, 0⟩
     [demoObstacle, demoCollectable]
     (by norm_num [demoCharacter, Vec2.abs_diff_eq_zero, VELOCITY_EPSILON])⟩

/-! ## Claim C8: degenerate inputs -/

/-- C8 counterexample: with nonzero velocity but dt = 0 the movement
delta is zero-length, yet an overlapping Collect collider still produces
an interaction event — the code's short-circuit tests the velocity, not
the delta.  The position is unchanged either way. -/
theorem zero_delta_still_interacts :
    motionDelta 0 demoCharacter = ⟨0, 0⟩ ∧
    (continous_move_character_system 0 0 0 demoCharacter demoCharCollider
      ⟨0, 0⟩ [demoCollectable]).2.length = 1 ∧
    (continous_move_character_system 0 0 0 demoCharacter demoCharCollider
      ⟨0, 0⟩ [demoCollectable]).1 = ⟨0, 0⟩ := by
  norm_num [demoCharacter, demoCharCollider, demoCollectable,
    continous_move_character_system, motionStep, motionDelta, Collider.new,
    Collider.intersect, Collider.bounding_volume,
    Collider.bounding_volume_with_translation, Aabb.intersects,
    Collision.is_obstruction, ColliderEntry.in_scope, Vec2.abs_diff_eq_zero,
    VELOCITY_EPSILON, Vec2.zero]

/-- C8 amended: degenerate inputs short-circuit to no interaction without
error — a query against a collider with an empty behavior set returns
none regardless of geometric overlap, and an actor whose VELOCITY is
within epsilon of zero is skipped entirely: no events and no position
change that frame.  (A zero-length delta arising from nonzero velocity
with dt = 0 is not short-circuited, per the counterexample.) -/
theorem degenerate_query_short_circuit :
    (∀ (c : Collider) (g : Vec2) (other : Aabb),
      c.behaviors = [] → c.intersect g other = none) ∧
    (∀ (dt : ℚ) (cm ce : ℕ) (ch : Character) (ccol : Collider) (pos : Vec2)
      (cols : List ColliderEntry),
      ch.velocity.abs_diff_eq_zero = true →
      continous_move_character_system dt cm ce ch ccol pos cols = (pos, [])) := by
  constructor
  · intro c g other h
    simp [Collider.intersect, h]
  · intro dt cm ce ch ccol pos cols h
    simp [continous_move_character_system, h]

/-- Witness for the amended C8. -/
theorem degenerate_query_short_circuit_witness :
    (Collider.new [] ⟨2, 2⟩ ⟨0, 0⟩).intersect ⟨0, 0⟩ ⟨⟨-1, -1⟩, ⟨1, 1⟩⟩ = none ∧
    continous_move_character_system 1 0 0 ⟨⟨0, 0⟩, 1⟩ demoCharCollider ⟨3, 4⟩
      [demoObstacle] = (⟨3, 4⟩, []) :=
  ⟨degenerate_query_short_circuit.1 _ _ _ rfl,
   degenerate_query_short_circuit.2 1 0 0 ⟨⟨0, 0⟩, 1⟩ demoCharCollider ⟨3, 4⟩
     [demoObstacle]
     (by norm_num [Vec2.abs_diff_eq_zero, VELOCITY_EPSILON])⟩

end Twodina
